import Mathlib

/-!
Verification of `mlops-infra/app/train.py` against its specification.

The Python source is shallowly embedded: pure computations become Lean
functions on `ℚ`/`ℕ`/`String`, the push client's side effects become an
explicit event trace, and the orchestrator's mutable state is threaded
explicitly. Randomness (`random.uniform`, `random.random`) is modelled by
passing the drawn values as parameters, constrained by their documented
ranges where a theorem needs them.
-/

namespace MLOpsTrain

/-- Rounding to `ndigits` decimal places, modelling Python's
`round(x, ndigits)` as used in `generate_training_metrics` and
`run_training`. Python rounds binary floats to the nearest representable
value (ties to even); we model round-to-nearest on exact rationals
(Mathlib's `round`, ties half-up). All properties proved below use only
monotonicity, the fixing of grid points, and evaluation away from ties,
which are independent of the tie-breaking rule. -/
def pyRound (ndigits : ℕ) (x : ℚ) : ℚ :=
  ((round (x * 10 ^ ndigits) : ℤ) : ℚ) / 10 ^ ndigits

theorem round_rat_mono {x y : ℚ} (h : x ≤ y) : round x ≤ round y := by
  rw [round_eq, round_eq]
  exact Int.floor_le_floor (by linarith)

theorem pyRound_mono (n : ℕ) {x y : ℚ} (h : x ≤ y) : pyRound n x ≤ pyRound n y := by
  unfold pyRound
  have hp : (0 : ℚ) < 10 ^ n := by positivity
  rw [div_le_div_iff_of_pos_right hp]
  exact_mod_cast round_rat_mono (by nlinarith)

/-- `pyRound` fixes any rational lying on the `10 ^ n` grid. -/
theorem pyRound_eq_self (n : ℕ) (x : ℚ) (z : ℤ) (h : x * 10 ^ n = (z : ℚ)) :
    pyRound n x = x := by
  have hp : (0 : ℚ) < 10 ^ n := by positivity
  unfold pyRound
  rw [h, round_intCast, eq_comm, eq_div_iff (ne_of_gt hp)]
  exact h

/-- One synthetic per-epoch measurement, mirroring the dict returned by
`MLTrainer.generate_training_metrics`. -/
structure TrainingMetrics where
  epoch : ℕ
  accuracy : ℚ
  loss : ℚ
  learning_rate : ℚ
  cpu_usage_percent : ℚ
  memory_usage_percent : ℚ
  gpu_usage_percent : ℚ
  timestamp : String
  batch_size : ℕ
  model_name : String
deriving DecidableEq

/-- The values drawn from `random` during one call of
`generate_training_metrics`, in source order:
`random.uniform(-0.05, 0.05)`, `random.uniform(-0.1, 0.1)`,
`random.uniform(60, 90)`, `random.uniform(70, 85)`,
`random.uniform(80, 95)` and the `random.random()` coin deciding whether
the GPU is used. -/
structure NoiseDraws where
  acc_noise : ℚ
  loss_noise : ℚ
  cpu_draw : ℚ
  mem_draw : ℚ
  gpu_draw : ℚ
  gpu_coin : ℚ
deriving DecidableEq

/-- Embedding of `MLTrainer.generate_training_metrics` (train.py lines
113-139); `epochs` is `self.epochs`, `model_name` is `self.model_name`,
`ts` stands for the `datetime.now().isoformat()` string. -/
def generate_training_metrics (model_name : String) (epochs : ℕ) (epoch : ℕ)
    (r : NoiseDraws) (ts : String) : TrainingMetrics :=
  let base_accuracy : ℚ := 0.6 + ((epoch : ℚ) / (epochs : ℚ)) * 0.3
  let accuracy : ℚ := min 0.95 (base_accuracy + r.acc_noise)
  let base_loss : ℚ := 1.0 - ((epoch : ℚ) / (epochs : ℚ)) * 0.7
  let loss : ℚ := max 0.1 (base_loss + r.loss_noise)
  let cpu_usage : ℚ := r.cpu_draw
  let memory_usage : ℚ := r.mem_draw
  let gpu_usage : ℚ := if r.gpu_coin > 0.3 then r.gpu_draw else 0
  { epoch := epoch
    accuracy := pyRound 4 accuracy
    loss := pyRound 4 loss
    learning_rate := 0.001 * (0.9 : ℚ) ^ (epoch / 3)
    cpu_usage_percent := pyRound 2 cpu_usage
    memory_usage_percent := pyRound 2 memory_usage
    gpu_usage_percent := pyRound 2 gpu_usage
    timestamp := ts
    batch_size := 32
    model_name := model_name }

/-- The learning-rate decay schedule `0.001 * (0.9 ** (epoch // 3))` from
train.py line 132 (`epoch / 3` is Nat floor division, as `//` in Python). -/
def learning_rate_of (epoch : ℕ) : ℚ := 0.001 * (0.9 : ℚ) ^ (epoch / 3)

/-- The range constraints §8 of the spec asserts for every generated
sample. -/
def SampleWithinBounds (m : TrainingMetrics) : Prop :=
  0 ≤ m.accuracy ∧ m.accuracy ≤ 1 ∧ m.accuracy ≤ 0.95 ∧
  0.1 ≤ m.loss ∧
  0 ≤ m.cpu_usage_percent ∧ m.cpu_usage_percent ≤ 100 ∧
  0 ≤ m.memory_usage_percent ∧ m.memory_usage_percent ≤ 100 ∧
  0 ≤ m.gpu_usage_percent ∧ m.gpu_usage_percent ≤ 100

instance (m : TrainingMetrics) : Decidable (SampleWithinBounds m) := by
  unfold SampleWithinBounds; infer_instance

/-- Outcome of one `push_to_gateway` network attempt, matching the four
exception classes caught in `push_metrics_to_prometheus` (train.py lines
186-222): `requests.exceptions.Timeout`, `ConnectionError`,
`RequestException`, and the final catch-all `Exception`. -/
inductive AttemptOutcome
  | success
  | timeout
  | connectionError
  | requestError
  | unexpected
deriving DecidableEq

def AttemptOutcome.isSuccess : AttemptOutcome → Bool
  | .success => true
  | _ => false

/-- One observable side effect performed by
`push_metrics_to_prometheus`. `setGauge` records a
`gauge.labels(model_name, model_version).set(value)` call, `incEpoch` the
`epoch_counter` increment, `send` the `push_to_gateway` network call,
`incFailure` the `metrics_failure_counter` increment, and `sleep` a
`time.sleep(delay)` call. -/
inductive PushEvent
  | setGauge (gauge : String) (model_name model_version : String) (value : ℚ)
  | incEpoch (model_name model_version : String)
  | send (outcome : AttemptOutcome)
  | incFailure (model_name model_version : String)
  | sleep (seconds : ℚ)
deriving DecidableEq

def max_retries : ℕ := 3

def base_delay : ℚ := 1

/-- The side effects of the body of the `try` block in one attempt
(train.py lines 166-181): the five metric updates in source order,
followed by the network send. In the Python these updates are plain
in-memory assignments that cannot fail; only the send can raise. -/
def attemptEvents (nm vr : String) (m : TrainingMetrics) (o : AttemptOutcome) :
    List PushEvent :=
  [ .setGauge "ml_training_accuracy" nm vr m.accuracy,
    .setGauge "ml_training_loss" nm vr m.loss,
    .incEpoch nm vr,
    .setGauge "ml_training_cpu_usage_percent" nm vr m.cpu_usage_percent,
    .setGauge "ml_training_memory_usage_percent" nm vr m.memory_usage_percent,
    .send o ]

/-- The retry loop `for attempt in range(max_retries)` of
`push_metrics_to_prometheus`, unrolled on the number of attempts still
available (`remaining = max_retries - attempt`). A successful send
returns at once; a failed attempt increments the failure counter and, if
it is not the last attempt (`attempt < max_retries - 1`, i.e.
`remaining ≠ 0` after the pattern match), sleeps
`base_delay * 2 ** attempt` seconds before the next attempt. -/
def pushLoop (nm vr : String) (m : TrainingMetrics) (gw : ℕ → AttemptOutcome)
    (attempt : ℕ) : ℕ → List PushEvent
  | 0 => []
  | remaining + 1 =>
    let o := gw attempt
    if o.isSuccess then
      attemptEvents nm vr m o
    else
      attemptEvents nm vr m o ++ [.incFailure nm vr] ++
        (if remaining ≠ 0 then [.sleep (base_delay * 2 ^ attempt)] else []) ++
        pushLoop nm vr m gw (attempt + 1) remaining

/-- Embedding of `MLTrainer.push_metrics_to_prometheus` (train.py lines
158-233) as the trace of side effects it performs. `gw` gives the
gateway's behaviour on each attempt index. The Python function never
raises: every exception from the send is caught by the `except` chain
ending in `except Exception`; correspondingly the embedding is a total
function. -/
def push_metrics_to_prometheus (nm vr : String) (m : TrainingMetrics)
    (gw : ℕ → AttemptOutcome) : List PushEvent :=
  pushLoop nm vr m gw 0 max_retries

def countSends : List PushEvent → ℕ
  | [] => 0
  | .send _ :: t => countSends t + 1
  | _ :: t => countSends t

def countFailedSends : List PushEvent → ℕ
  | [] => 0
  | .send o :: t => (if o.isSuccess then 0 else 1) + countFailedSends t
  | _ :: t => countFailedSends t

def countFailureIncs : List PushEvent → ℕ
  | [] => 0
  | .incFailure _ _ :: t => countFailureIncs t + 1
  | _ :: t => countFailureIncs t

def countEpochIncs : List PushEvent → ℕ
  | [] => 0
  | .incEpoch _ _ :: t => countEpochIncs t + 1
  | _ :: t => countEpochIncs t

/-- The sleep durations of a trace, in order. -/
def sleepsOf : List PushEvent → List ℚ
  | [] => []
  | .sleep s :: t => s :: sleepsOf t
  | _ :: t => sleepsOf t

/-- The gauge names written by a trace, in order. -/
def gaugeNamesOf : List PushEvent → List String
  | [] => []
  | .setGauge g _ _ _ :: t => g :: gaugeNamesOf t
  | _ :: t => gaugeNamesOf t

/-- The values written to one named gauge by a trace, in order. -/
def gaugeSetsOf (gauge : String) : List PushEvent → List ℚ
  | [] => []
  | .setGauge g _ _ v :: t =>
      if g = gauge then v :: gaugeSetsOf gauge t else gaugeSetsOf gauge t
  | _ :: t => gaugeSetsOf gauge t

/-- The value a named gauge holds after a trace ran, given the value it
held before (`prior`): the last write wins, and a trace that never writes
the gauge leaves the prior value. -/
def gaugeValueAfter (prior : Option ℚ) (gauge : String) (t : List PushEvent) :
    Option ℚ :=
  match (gaugeSetsOf gauge t).getLast? with
  | some v => some v
  | none => prior

/-- A trace restricted to the events of attempt bodies (gauge writes,
epoch-counter increments, sends), dropping failure-counter increments and
sleeps. -/
def attemptCore : List PushEvent → List PushEvent
  | [] => []
  | .setGauge g nm vr v :: t => .setGauge g nm vr v :: attemptCore t
  | .incEpoch nm vr :: t => .incEpoch nm vr :: attemptCore t
  | .send o :: t => .send o :: attemptCore t
  | _ :: t => attemptCore t

/-- A trace restricted to epoch-counter increments and sends, exposing
their relative order. -/
def epochSendCore : List PushEvent → List PushEvent
  | [] => []
  | .incEpoch nm vr :: t => .incEpoch nm vr :: epochSendCore t
  | .send o :: t => .send o :: epochSendCore t
  | _ :: t => epochSendCore t

/-- `push_metrics_to_prometheus` fully unrolled over its three attempts. -/
theorem push_unfold (nm vr : String) (m : TrainingMetrics)
    (gw : ℕ → AttemptOutcome) :
    push_metrics_to_prometheus nm vr m gw =
      (if (gw 0).isSuccess then attemptEvents nm vr m (gw 0)
       else attemptEvents nm vr m (gw 0) ++ [.incFailure nm vr] ++
         [.sleep (base_delay * 2 ^ 0)] ++
         (if (gw 1).isSuccess then attemptEvents nm vr m (gw 1)
          else attemptEvents nm vr m (gw 1) ++ [.incFailure nm vr] ++
            [.sleep (base_delay * 2 ^ 1)] ++
            (if (gw 2).isSuccess then attemptEvents nm vr m (gw 2)
             else attemptEvents nm vr m (gw 2) ++ [.incFailure nm vr] ++
               [] ++ []))) := by
  show pushLoop nm vr m gw 0 3 = _
  rw [show (3 : ℕ) = 2 + 1 from rfl, pushLoop]
  rw [show (2 : ℕ) = 1 + 1 from rfl, pushLoop]
  rw [show (1 : ℕ) = 0 + 1 from rfl, pushLoop]
  simp only [pushLoop]
  norm_num

/-- A JSON scalar appearing in the bodies and result dicts built by
train.py. -/
inductive JsonVal
  | s (v : String)
  | q (v : ℚ)
  | n (v : ℕ)
deriving DecidableEq

/-- The response assembled by `HealthCheckHandler.do_GET`: status code,
the `Content-type` header if one is sent, and the JSON body if one is
written. -/
structure HttpResponse where
  status : ℕ
  content_type : Option String
  body : Option (List (String × JsonVal))
deriving DecidableEq

/-- The part of the `MLTrainer` state the health handler reads:
`model_name`, the shared `metrics` list, and the configured `epochs`. -/
structure TrainerHealthView where
  model_name : String
  metrics : List TrainingMetrics
  epochs : ℕ

/-- Embedding of `HealthCheckHandler.do_GET` (train.py lines 34-52).
`trainer` is the handler's `self.trainer` (`None` becomes `none`), read at
request time; `now_iso` stands for `datetime.now().isoformat()`. -/
def do_GET (trainer : Option TrainerHealthView) (path : String)
    (now_iso : String) : HttpResponse :=
  if path = "/health" then
    { status := 200
      content_type := some "application/json"
      body := some
        [ ("status", .s "healthy"),
          ("model_name", .s (match trainer with
            | some t => t.model_name
            | none => "unknown")),
          ("epochs_completed", .n (match trainer with
            | some t => t.metrics.length
            | none => 0)),
          ("total_epochs", .n (match trainer with
            | some t => t.epochs
            | none => 0)),
          ("timestamp", .s now_iso) ] }
  else
    { status := 404, content_type := none, body := none }

/-- Handle to a bound `HTTPServer` held in `HealthCheckServer.server`. -/
structure ServerHandle where
  id : ℕ
deriving DecidableEq

/-- State of a `HealthCheckServer`: `server` is `None` until `start`
succeeds and is never reset afterwards. -/
structure HealthCheckServer where
  server : Option ServerHandle
deriving DecidableEq

/-- The externally visible actions one `stop()` call performs: how many
times it invoked `server.shutdown()` and `server.server_close()`. -/
structure StopEffects where
  shutdown_calls : ℕ
  close_calls : ℕ
deriving DecidableEq

/-- Embedding of `HealthCheckServer.stop` (train.py lines 78-86). When
`self.server` is unset the body is skipped entirely; otherwise
`shutdown()` and `server_close()` are invoked once each, inside a
`try/except` that absorbs any exception (so no error ever surfaces to the
caller). The handle is not cleared in either case, which is why the
returned state equals the input state. -/
def HealthCheckServer.stop (s : HealthCheckServer) :
    HealthCheckServer × StopEffects :=
  match s.server with
  | none => (s, { shutdown_calls := 0, close_calls := 0 })
  | some _ => (s, { shutdown_calls := 1, close_calls := 1 })

/-- The two counters of `MLTrainer` whose totals the orchestrator claims
speak about: `ml_training_epochs_total` and
`ml_training_metrics_failures_total`. -/
structure TrainerCounters where
  epoch_count : ℕ
  failure_count : ℕ
deriving DecidableEq

/-- Python's `max` over a nonempty list (`max([...])` in `run_training`);
the `[]` case is unreachable on the code path where it is used, because
`self.metrics[-1]` has already raised by then. -/
def listMax : List ℚ → ℚ
  | [] => 0
  | x :: xs => xs.foldl max x

/-- The `for epoch in range(1, self.epochs + 1)` loop of
`MLTrainer.run_training` together with `train_epoch` (train.py lines
141-156, 256-264), unrolled on the number of epochs still to run. `gen`
gives the behaviour of `generate_training_metrics` at each epoch
(`Except.error` models it raising), `gw` the gateway behaviour per epoch
and attempt. Each completed epoch appends its sample to `metrics` before
handing it to the push client, whose counter increments are accumulated;
an error stops the loop at once with the state accumulated so far. -/
def runEpochs (nm vr : String) (gen : ℕ → Except String TrainingMetrics)
    (gw : ℕ → ℕ → AttemptOutcome) :
    ℕ → ℕ → List TrainingMetrics → TrainerCounters →
      Option String × List TrainingMetrics × TrainerCounters
  | _, 0, ms, c => (none, ms, c)
  | epoch, remaining + 1, ms, c =>
    match gen epoch with
    | .error e => (some e, ms, c)
    | .ok m =>
      let t := push_metrics_to_prometheus nm vr m (gw epoch)
      runEpochs nm vr gen gw (epoch + 1) remaining (ms ++ [m])
        { epoch_count := c.epoch_count + countEpochIncs t
          failure_count := c.failure_count + countFailureIncs t }

/-- Embedding of `MLTrainer.run_training` (train.py lines 244-303),
returning the `results` dict it returns (as an ordered key/value list,
mirroring the Python dict literals), the final `self.metrics` list and
the final counter totals. `start_seconds`/`end_seconds` stand for the
wall-clock reads behind `self.start_time` and the `datetime.now()` in the
elapsed-time computation. The `except Exception` handler catches both a
generator error inside the loop and the `IndexError` that
`self.metrics[-1]` raises when the loop ran zero epochs. -/
def run_training (nm vr : String) (epochs : ℕ)
    (gen : ℕ → Except String TrainingMetrics)
    (gw : ℕ → ℕ → AttemptOutcome) (start_seconds end_seconds : ℚ) :
    List (String × JsonVal) × List TrainingMetrics × TrainerCounters :=
  match runEpochs nm vr gen gw 1 epochs [] { epoch_count := 0, failure_count := 0 } with
  | (some e, ms, c) =>
    ( [ ("model_name", .s nm),
        ("status", .s "failed"),
        ("error", .s e),
        ("epochs_completed", .n ms.length) ], ms, c)
  | (none, ms, c) =>
    match ms.getLast? with
    | none =>
      ( [ ("model_name", .s nm),
          ("status", .s "failed"),
          ("error", .s "list index out of range"),
          ("epochs_completed", .n ms.length) ], ms, c)
    | some mlast =>
      ( [ ("model_name", .s nm),
          ("final_accuracy", .q mlast.accuracy),
          ("total_epochs", .n epochs),
          ("training_time_seconds", .q (pyRound 2 (end_seconds - start_seconds))),
          ("status", .s "completed"),
          ("best_accuracy", .q (listMax (ms.map (·.accuracy)))),
          ("final_loss", .q mlast.loss) ], ms, c)

/-- A concrete sample used to instantiate witnesses: epoch 1 of 10 with
all noise draws at the centre of their ranges. -/
def sampleA : TrainingMetrics :=
  generate_training_metrics "demo-model" 10 1
    { acc_noise := 0, loss_noise := 0, cpu_draw := 60, mem_draw := 70,
      gpu_draw := 80, gpu_coin := 1/2 } "2026-01-01T00:00:00"

/-- C1: for every sample and every gateway behaviour, the push makes at
most 3 attempts, returns immediately after the first successful attempt
(first success on attempt k means exactly k+1 sends), and increments the
failure counter exactly once per failed attempt — 0 times when the first
attempt succeeds, 3 times when all 3 fail. The Python function never
raises to its caller: every exception of the send is absorbed by the
`except` chain ending in `except Exception`, which the embedding reflects
by being a total function from gateway behaviour to a finite trace. -/
theorem C1_push_retry_contract (nm vr : String) (m : TrainingMetrics)
    (gw : ℕ → AttemptOutcome) :
    countSends (push_metrics_to_prometheus nm vr m gw) ≤ 3 ∧
    countFailureIncs (push_metrics_to_prometheus nm vr m gw) =
      countFailedSends (push_metrics_to_prometheus nm vr m gw) ∧
    ((gw 0).isSuccess = true →
      countSends (push_metrics_to_prometheus nm vr m gw) = 1 ∧
      countFailureIncs (push_metrics_to_prometheus nm vr m gw) = 0) ∧
    (∀ k, k < 3 → (∀ j, j < k → (gw j).isSuccess = false) →
      (gw k).isSuccess = true →
      countSends (push_metrics_to_prometheus nm vr m gw) = k + 1) ∧
    ((∀ k, k < 3 → (gw k).isSuccess = false) →
      countSends (push_metrics_to_prometheus nm vr m gw) = 3 ∧
      countFailureIncs (push_metrics_to_prometheus nm vr m gw) = 3) := by
  have hU := push_unfold nm vr m gw
  refine ⟨?_, ?_, ?_, ?_, ?_⟩
  · rw [hU]
    cases h0 : (gw 0).isSuccess <;> cases h1 : (gw 1).isSuccess <;>
      cases h2 : (gw 2).isSuccess <;>
      simp [h0, h1, h2, attemptEvents, countSends]
  · rw [hU]
    cases h0 : (gw 0).isSuccess <;> cases h1 : (gw 1).isSuccess <;>
      cases h2 : (gw 2).isSuccess <;>
      simp [h0, h1, h2, attemptEvents, countSends, countFailureIncs,
        countFailedSends]
  · intro h0
    rw [hU]
    simp [h0, attemptEvents, countSends, countFailureIncs]
  · intro k hk hprev hsucc
    interval_cases k
    · rw [hU]
      simp [hsucc, attemptEvents, countSends]
    · have h0 := hprev 0 (by norm_num)
      rw [hU]
      simp [h0, hsucc, attemptEvents, countSends]
    · have h0 := hprev 0 (by norm_num)
      have h1 := hprev 1 (by norm_num)
      rw [hU]
      simp [h0, h1, hsucc, attemptEvents, countSends]
  · intro hall
    have h0 := hall 0 (by norm_num)
    have h1 := hall 1 (by norm_num)
    have h2 := hall 2 (by norm_num)
    rw [hU]
    constructor <;> simp [h0, h1, h2, attemptEvents, countSends, countFailureIncs]

/-- Witness for C1: a gateway failing all three attempts yields exactly 3
sends and 3 failure-counter increments. -/
theorem C1_push_retry_contract_witness :
    countSends (push_metrics_to_prometheus "demo-model" "1.0.0" sampleA
      (fun _ => .unexpected)) = 3 ∧
    countFailureIncs (push_metrics_to_prometheus "demo-model" "1.0.0" sampleA
      (fun _ => .unexpected)) = 3 :=
  (C1_push_retry_contract "demo-model" "1.0.0" sampleA
    (fun _ => .unexpected)).2.2.2.2 (by decide)

/-- C2: while a run is active (the handler holds a trainer reference), a
GET of `/health` returns 200 with a JSON body holding exactly the fields
`status` (value "healthy"), `model_name`, `epochs_completed`,
`total_epochs` and `timestamp`, where `epochs_completed` is the length of
the shared metrics list read at request time and `total_epochs` the
configured total; a GET of any other path returns 404 with an empty
body. -/
theorem C2_health_endpoint (t : TrainerHealthView) (ts path : String)
    (hpath : path ≠ "/health") :
    (do_GET (some t) "/health" ts).status = 200 ∧
    (do_GET (some t) "/health" ts).content_type = some "application/json" ∧
    ((do_GET (some t) "/health" ts).body).map (List.map Prod.fst) =
      some ["status", "model_name", "epochs_completed", "total_epochs",
        "timestamp"] ∧
    (do_GET (some t) "/health" ts).body = some
      [ ("status", .s "healthy"),
        ("model_name", .s t.model_name),
        ("epochs_completed", .n t.metrics.length),
        ("total_epochs", .n t.epochs),
        ("timestamp", .s ts) ] ∧
    do_GET (some t) path ts =
      { status := 404, content_type := none, body := none } := by
  refine ⟨rfl, rfl, rfl, rfl, ?_⟩
  simp [do_GET, hpath]

/-- Witness for C2, spec scenario C: during a 5-unit run with 2 units
completed, `/health` reports `epochs_completed: 2, total_epochs: 5` and
`/nope` gets a 404 with empty body. -/
theorem C2_health_endpoint_witness :
    (do_GET (some ⟨"demo-model", [sampleA, sampleA], 5⟩) "/health" "ts").body =
      some
        [ ("status", .s "healthy"),
          ("model_name", .s "demo-model"),
          ("epochs_completed", .n 2),
          ("total_epochs", .n 5),
          ("timestamp", .s "ts") ] ∧
    do_GET (some ⟨"demo-model", [sampleA, sampleA], 5⟩) "/nope" "ts" =
      { status := 404, content_type := none, body := none } :=
  ⟨(C2_health_endpoint ⟨"demo-model", [sampleA, sampleA], 5⟩ "ts" "/nope"
      (by decide)).2.2.2.1,
   (C2_health_endpoint ⟨"demo-model", [sampleA, sampleA], 5⟩ "ts" "/nope"
      (by decide)).2.2.2.2⟩

/-- C3 (amended): between attempt N and N+1 the client sleeps
`1 * 2 ^ (N-1)` seconds, but with 3 attempts total at most two sleeps ever
occur — 1s after a failed first attempt and 2s after a failed second — so
the per-unit retry sleeping totals at most 1 + 2 = 3 seconds (not 7), and
no sleep follows the final attempt. -/
theorem C3_backoff_schedule (nm vr : String) (m : TrainingMetrics)
    (gw : ℕ → AttemptOutcome) :
    sleepsOf (push_metrics_to_prometheus nm vr m gw) =
      (if (gw 0).isSuccess then []
       else (1 : ℚ) :: (if (gw 1).isSuccess then [] else [2])) ∧
    (sleepsOf (push_metrics_to_prometheus nm vr m gw)).sum ≤ 3 := by
  have hU := push_unfold nm vr m gw
  rw [hU]
  cases h0 : (gw 0).isSuccess <;> cases h1 : (gw 1).isSuccess <;>
    cases h2 : (gw 2).isSuccess <;>
    constructor <;>
    simp [h0, h1, h2, attemptEvents, sleepsOf, base_delay] <;> norm_num

/-- Counterexample for C3: with a gateway failing all three attempts —
the case maximising retry sleeping — the sleeps are exactly [1s, 2s]
totalling 3 seconds; a 4-second third sleep never occurs, so the claimed
worst-case total of 1+2+4=7 seconds is wrong. -/
theorem C3_counterexample :
    sleepsOf (push_metrics_to_prometheus "demo-model" "1.0.0" sampleA
      (fun _ => .timeout)) = [1, 2] ∧
    (sleepsOf (push_metrics_to_prometheus "demo-model" "1.0.0" sampleA
      (fun _ => .timeout))).sum = 3 ∧
    (3 : ℚ) ≠ 7 := by
  rw [push_unfold]
  norm_num [attemptEvents, sleepsOf, base_delay, AttemptOutcome.isSuccess]

/-- C4 (amended): on every attempt, successful or failed, the push client
first writes the sample's quality (accuracy), cost (loss), CPU and memory
gauges — keyed by (model name, model version) — and increments the unit
counter, and only then performs the network send; no gauge for the
secondary decayed rate or the accelerator utilization exists. After any
push (in particular one whose attempts all failed) the four gauges hold
the current sample's values, overwriting whatever the prior successful
push had left. -/
theorem C4_gauge_update_discipline (nm vr : String) (m : TrainingMetrics)
    (gw : ℕ → AttemptOutcome) (prior : Option ℚ) :
    attemptCore (push_metrics_to_prometheus nm vr m gw) =
      ((List.range (countSends (push_metrics_to_prometheus nm vr m gw))).map
        gw).bind (attemptEvents nm vr m) ∧
    gaugeNamesOf (push_metrics_to_prometheus nm vr m gw) =
      (List.range (countSends (push_metrics_to_prometheus nm vr m gw))).bind
        (fun _ =>
          ["ml_training_accuracy", "ml_training_loss",
           "ml_training_cpu_usage_percent",
           "ml_training_memory_usage_percent"]) ∧
    gaugeValueAfter prior "ml_training_accuracy"
      (push_metrics_to_prometheus nm vr m gw) = some m.accuracy ∧
    gaugeValueAfter prior "ml_training_loss"
      (push_metrics_to_prometheus nm vr m gw) = some m.loss ∧
    gaugeValueAfter prior "ml_training_cpu_usage_percent"
      (push_metrics_to_prometheus nm vr m gw) = some m.cpu_usage_percent ∧
    gaugeValueAfter prior "ml_training_memory_usage_percent"
      (push_metrics_to_prometheus nm vr m gw) = some m.memory_usage_percent := by
  have hU := push_unfold nm vr m gw
  rw [hU]
  cases h0 : (gw 0).isSuccess <;> cases h1 : (gw 1).isSuccess <;>
    cases h2 : (gw 2).isSuccess <;>
    refine ⟨?_, ?_, ?_, ?_, ?_, ?_⟩ <;>
    simp [h0, h1, h2, attemptEvents, attemptCore, gaugeNamesOf, gaugeSetsOf,
      gaugeValueAfter, countSends, List.range_succ]

/-- Counterexample for C4: with a prior accuracy-gauge value of 1/2 and a
gateway failing all three attempts, the push leaves the accuracy gauge at
the new sample's value 63/100, not at the prior 1/2 — the failed push did
not leave the prior gauge state untouched. Moreover the only gauges ever
written are accuracy, loss, CPU and memory: no secondary-rate gauge and
no accelerator-utilization gauge is among the writes, contradicting the
claimed set of gauges. -/
theorem C4_counterexample :
    gaugeValueAfter (some (1/2)) "ml_training_accuracy"
      (push_metrics_to_prometheus "demo-model" "1.0.0" sampleA
        (fun _ => .timeout)) = some (63/100) ∧
    sampleA.accuracy = 63/100 ∧
    (63 : ℚ)/100 ≠ 1/2 ∧
    gaugeNamesOf (push_metrics_to_prometheus "demo-model" "1.0.0" sampleA
      (fun _ => .timeout)) =
      ["ml_training_accuracy", "ml_training_loss",
       "ml_training_cpu_usage_percent", "ml_training_memory_usage_percent",
       "ml_training_accuracy", "ml_training_loss",
       "ml_training_cpu_usage_percent", "ml_training_memory_usage_percent",
       "ml_training_accuracy", "ml_training_loss",
       "ml_training_cpu_usage_percent", "ml_training_memory_usage_percent"] := by
  have hacc : sampleA.accuracy = 63/100 := by
    show pyRound 4 (min 0.95 (0.6 + ((1 : ℚ) / 10) * 0.3 + 0)) = 63/100
    rw [show min (0.95 : ℚ) (0.6 + ((1 : ℚ) / 10) * 0.3 + 0) = 63/100 by
      rw [min_eq_right (by norm_num)]; norm_num]
    unfold pyRound
    norm_num
  refine ⟨?_, hacc, by norm_num, ?_⟩
  · rw [push_unfold]
    simp [attemptEvents, AttemptOutcome.isSuccess, gaugeValueAfter,
      gaugeSetsOf, hacc]
  · rw [push_unfold]
    simp [attemptEvents, AttemptOutcome.isSuccess, gaugeNamesOf]

/-- C9 (amended): `stop()` surfaces no error to its caller — when never
started the guarded body is skipped entirely, and any exception of the
shutdown calls is absorbed by the `try/except` — but the server handle is
never cleared, so a second `stop()` after a start re-invokes
`shutdown()` and `server_close()` once more rather than performing no
further shutdown actions. -/
theorem C9_stop_behaviour (h : ServerHandle) :
    HealthCheckServer.stop ⟨none⟩ = (⟨none⟩, ⟨0, 0⟩) ∧
    HealthCheckServer.stop ⟨some h⟩ = (⟨some h⟩, ⟨1, 1⟩) ∧
    HealthCheckServer.stop (HealthCheckServer.stop ⟨some h⟩).1 =
      (⟨some h⟩, ⟨1, 1⟩) :=
  ⟨rfl, rfl, rfl⟩

/-- Counterexample for C9: after a started server is stopped once, the
second `stop()` call still performs one further `shutdown()` call (the
handle was not cleared), contradicting "the second call performs no
further shutdown actions beyond the first". -/
theorem C9_counterexample :
    (HealthCheckServer.stop
      (HealthCheckServer.stop ⟨some ⟨0⟩⟩).1).2.shutdown_calls = 1 ∧
    (1 : ℕ) ≠ 0 := by
  decide

/-- C7: for every unit index in 1..totalUnits and every draw of the
random source (each draw constrained to the range `random.uniform` was
called with), the generator always succeeds (it is a total function) and
produces a sample with quality in [0,1] and ≤ 0.95, cost ≥ 0.1, and all
three utilization percentages in [0,100]. -/
theorem C7_generated_sample_ranges (model_name ts : String)
    (epochs epoch : ℕ) (r : NoiseDraws)
    (h1 : 1 ≤ epoch) (h2 : epoch ≤ epochs)
    (han1 : -0.05 ≤ r.acc_noise) (han2 : r.acc_noise ≤ 0.05)
    (hln1 : -0.1 ≤ r.loss_noise) (hln2 : r.loss_noise ≤ 0.1)
    (hc1 : 60 ≤ r.cpu_draw) (hc2 : r.cpu_draw ≤ 90)
    (hm1 : 70 ≤ r.mem_draw) (hm2 : r.mem_draw ≤ 85)
    (hg1 : 80 ≤ r.gpu_draw) (hg2 : r.gpu_draw ≤ 95) :
    SampleWithinBounds (generate_training_metrics model_name epochs epoch r ts) := by
  have hratio : (0 : ℚ) ≤ (epoch : ℚ) / (epochs : ℚ) := by positivity
  have h95 : pyRound 4 (0.95 : ℚ) = 0.95 := pyRound_eq_self 4 0.95 9500 (by norm_num)
  have h01 : pyRound 4 (0.1 : ℚ) = 0.1 := pyRound_eq_self 4 0.1 1000 (by norm_num)
  have hz : ∀ n, pyRound n (0 : ℚ) = 0 := fun n => pyRound_eq_self n 0 0 (by norm_num)
  have h100 : pyRound 2 (100 : ℚ) = 100 := pyRound_eq_self 2 100 10000 (by norm_num)
  unfold SampleWithinBounds generate_training_metrics
  simp only
  have haccL : (0 : ℚ) ≤
      min 0.95 (0.6 + (epoch : ℚ) / (epochs : ℚ) * 0.3 + r.acc_noise) :=
    le_min (by norm_num) (by nlinarith)
  have haccU :
      min (0.95 : ℚ) (0.6 + (epoch : ℚ) / (epochs : ℚ) * 0.3 + r.acc_noise) ≤
        0.95 := min_le_left _ _
  refine ⟨?_, ?_, ?_, ?_, ?_, ?_, ?_, ?_, ?_, ?_⟩
  · have h := pyRound_mono 4 haccL
    rwa [hz 4] at h
  · have h := pyRound_mono 4 haccU
    rw [h95] at h
    linarith
  · have h := pyRound_mono 4 haccU
    rwa [h95] at h
  · have h := pyRound_mono 4 (le_max_left (0.1 : ℚ)
      (1.0 - (epoch : ℚ) / (epochs : ℚ) * 0.7 + r.loss_noise))
    rwa [h01] at h
  · have h := pyRound_mono 2 (show (0 : ℚ) ≤ r.cpu_draw by linarith)
    rwa [hz 2] at h
  · have h := pyRound_mono 2 (show r.cpu_draw ≤ (100 : ℚ) by linarith)
    rwa [h100] at h
  · have h := pyRound_mono 2 (show (0 : ℚ) ≤ r.mem_draw by linarith)
    rwa [hz 2] at h
  · have h := pyRound_mono 2 (show r.mem_draw ≤ (100 : ℚ) by linarith)
    rwa [h100] at h
  · have h := pyRound_mono 2
      (show (0 : ℚ) ≤ (if r.gpu_coin > 0.3 then r.gpu_draw else 0) by
        split_ifs with hcoin
        · linarith
        · exact le_refl 0)
    rwa [hz 2] at h
  · have h := pyRound_mono 2
      (show (if r.gpu_coin > 0.3 then r.gpu_draw else 0) ≤ (100 : ℚ) by
        split_ifs with hcoin
        · linarith
        · norm_num)
    rwa [h100] at h

/-- Witness for C7 at epoch 1 of 10 with every draw at the low end of its
range and the GPU coin above 0.3. -/
theorem C7_generated_sample_ranges_witness :
    SampleWithinBounds (generate_training_metrics "demo-model" 10 1
      { acc_noise := -0.05, loss_noise := -0.1, cpu_draw := 60, mem_draw := 70,
        gpu_draw := 80, gpu_coin := 1/2 } "t") :=
  C7_generated_sample_ranges "demo-model" "t" 10 1 _
    (by norm_num) (by norm_num) (by norm_num) (by norm_num) (by norm_num)
    (by norm_num) (by norm_num) (by norm_num) (by norm_num) (by norm_num)
    (by norm_num) (by norm_num)

/-- C8: every generated sample carries the secondary decayed-rate
parameter `0.001 * 0.9 ^ (epoch // 3)`; the schedule is non-increasing in
the unit index, keeps the prior value exactly when the next index is not
a multiple of 3 (a step function with steps every 3 consecutive indices),
and strictly decreases at every step boundary. -/
theorem C8_learning_rate_schedule (model_name ts : String)
    (epochs epoch : ℕ) (r : NoiseDraws) :
    (generate_training_metrics model_name epochs epoch r ts).learning_rate =
      learning_rate_of epoch ∧
    learning_rate_of epoch = 0.001 * (0.9 : ℚ) ^ (epoch / 3) ∧
    (∀ u v : ℕ, u ≤ v → learning_rate_of v ≤ learning_rate_of u) ∧
    (∀ u : ℕ, (u + 1) % 3 ≠ 0 → learning_rate_of (u + 1) = learning_rate_of u) ∧
    (∀ u : ℕ, (u + 1) % 3 = 0 → learning_rate_of (u + 1) < learning_rate_of u) := by
  refine ⟨rfl, rfl, ?_, ?_, ?_⟩
  · intro u v huv
    unfold learning_rate_of
    have hpow : (0.9 : ℚ) ^ (v / 3) ≤ 0.9 ^ (u / 3) :=
      pow_le_pow_of_le_one (by norm_num) (by norm_num) (Nat.div_le_div_right huv)
    nlinarith
  · intro u hu
    unfold learning_rate_of
    rw [Nat.succ_div_of_not_dvd (fun hdvd =>
      hu (Nat.dvd_iff_mod_eq_zero.mp hdvd))]
  · intro u hu
    unfold learning_rate_of
    rw [Nat.succ_div_of_dvd (Nat.dvd_iff_mod_eq_zero.mpr hu)]
    have hpow : (0.9 : ℚ) ^ (u / 3 + 1) < 0.9 ^ (u / 3) :=
      pow_lt_pow_right_of_lt_one₀ (by norm_num) (by norm_num) (Nat.lt_succ_self _)
    nlinarith

/-- Witness for C8: the rate steps strictly down from unit 2 to unit 3
and is unchanged from unit 1 to unit 2. -/
theorem C8_learning_rate_schedule_witness :
    learning_rate_of 3 < learning_rate_of 2 ∧
    learning_rate_of 2 = learning_rate_of 1 :=
  ⟨(C8_learning_rate_schedule "demo-model" "t" 10 1
      { acc_noise := 0, loss_noise := 0, cpu_draw := 60, mem_draw := 70,
        gpu_draw := 80, gpu_coin := 1/2 }).2.2.2.2 2 (by norm_num),
   (C8_learning_rate_schedule "demo-model" "t" 10 1
      { acc_noise := 0, loss_noise := 0, cpu_draw := 60, mem_draw := 70,
        gpu_draw := 80, gpu_coin := 1/2 }).2.2.2.1 1 (by norm_num)⟩

theorem countEpochIncs_eq_countSends (nm vr : String) (m : TrainingMetrics)
    (gw : ℕ → AttemptOutcome) :
    countEpochIncs (push_metrics_to_prometheus nm vr m gw) =
      countSends (push_metrics_to_prometheus nm vr m gw) := by
  rw [push_unfold]
  cases h0 : (gw 0).isSuccess <;> cases h1 : (gw 1).isSuccess <;>
    cases h2 : (gw 2).isSuccess <;>
    simp [h0, h1, h2, attemptEvents, countEpochIncs, countSends]

theorem one_le_countSends (nm vr : String) (m : TrainingMetrics)
    (gw : ℕ → AttemptOutcome) :
    1 ≤ countSends (push_metrics_to_prometheus nm vr m gw) := by
  rw [push_unfold]
  cases h0 : (gw 0).isSuccess <;> cases h1 : (gw 1).isSuccess <;>
    cases h2 : (gw 2).isSuccess <;>
    simp [h0, h1, h2, attemptEvents, countSends]

theorem two_le_countSends_of_first_fail (nm vr : String) (m : TrainingMetrics)
    (gw : ℕ → AttemptOutcome) (h : (gw 0).isSuccess = false) :
    2 ≤ countSends (push_metrics_to_prometheus nm vr m gw) := by
  rw [push_unfold]
  cases h1 : (gw 1).isSuccess <;> cases h2 : (gw 2).isSuccess <;>
    simp [h, h1, h2, attemptEvents, countSends]

theorem length_le_sum : ∀ l : List ℕ, (∀ x ∈ l, 1 ≤ x) → l.length ≤ l.sum
  | [], _ => le_refl 0
  | y :: t, h => by
    have ht := length_le_sum t (fun x hx => h x (List.mem_cons_of_mem y hx))
    have hy := h y (List.mem_cons_self y t)
    simp only [List.length_cons, List.sum_cons]
    omega

theorem length_lt_sum : ∀ l : List ℕ, (∀ x ∈ l, 1 ≤ x) →
    ∀ x, x ∈ l → 2 ≤ x → l.length < l.sum
  | [], _, x, hx, _ => absurd hx (List.not_mem_nil x)
  | y :: t, h1, x, hx, h2 => by
    rcases List.mem_cons.mp hx with heq | hxt
    · have ht := length_le_sum t (fun z hz => h1 z (List.mem_cons_of_mem y hz))
      simp only [List.length_cons, List.sum_cons]
      omega
    · have ht := length_lt_sum t (fun z hz => h1 z (List.mem_cons_of_mem y hz)) x hxt h2
      have hy := h1 y (List.mem_cons_self y t)
      simp only [List.length_cons, List.sum_cons]
      omega

theorem foldl_max_le_init : ∀ (t : List ℚ) (a : ℚ), a ≤ t.foldl max a
  | [], a => le_refl a
  | y :: t, a =>
    le_trans (le_max_left a y) (foldl_max_le_init t (max a y))

theorem foldl_max_le_of_mem : ∀ (t : List ℚ) (a x : ℚ), x ∈ t → x ≤ t.foldl max a
  | [], _, x, h => absurd h (List.not_mem_nil x)
  | y :: t, a, x, h => by
    rcases List.mem_cons.mp h with heq | hxt
    · subst heq
      exact le_trans (le_max_right a x) (foldl_max_le_init t (max a x))
    · exact foldl_max_le_of_mem t (max a y) x hxt

theorem foldl_max_cases : ∀ (t : List ℚ) (a : ℚ),
    t.foldl max a = a ∨ t.foldl max a ∈ t
  | [], a => Or.inl rfl
  | y :: t, a => by
    rcases foldl_max_cases t (max a y) with h | h
    · rcases le_total a y with hay | hya
      · right
        simp only [List.foldl_cons]
        rw [h, max_eq_right hay]
        exact List.mem_cons_self y t
      · left
        simp only [List.foldl_cons]
        rw [h, max_eq_left hya]
    · right
      exact List.mem_cons_of_mem y h

theorem le_listMax_of_mem : ∀ {l : List ℚ} {x : ℚ}, x ∈ l → x ≤ listMax l
  | [], x, h => absurd h (List.not_mem_nil x)
  | y :: t, x, h => by
    rcases List.mem_cons.mp h with heq | hxt
    · subst heq
      exact foldl_max_le_init t x
    · exact foldl_max_le_of_mem t y x hxt

theorem listMax_mem : ∀ {l : List ℚ}, l ≠ [] → listMax l ∈ l
  | [], h => absurd rfl h
  | y :: t, _ => by
    rcases foldl_max_cases t y with h | h
    · rw [show listMax (y :: t) = t.foldl max y from rfl, h]
      exact List.mem_cons_self y t
    · exact List.mem_cons_of_mem y h

/-- If the generator succeeds on every epoch of the window
`start, start+1, ..., start+fuel-1`, the training loop runs the whole
window: it appends the window's samples in order and accumulates the
per-push counter increments. -/
theorem runEpochs_ok (nm vr : String) (gen : ℕ → Except String TrainingMetrics)
    (gw : ℕ → ℕ → AttemptOutcome) (mf : ℕ → TrainingMetrics) :
    ∀ (fuel start : ℕ) (ms : List TrainingMetrics) (c : TrainerCounters),
      (∀ e ∈ List.range' start fuel, gen e = .ok (mf e)) →
      runEpochs nm vr gen gw start fuel ms c =
        (none,
          ms ++ (List.range' start fuel).map mf,
          { epoch_count := c.epoch_count + ((List.range' start fuel).map (fun e =>
              countEpochIncs (push_metrics_to_prometheus nm vr (mf e) (gw e)))).sum,
            failure_count := c.failure_count + ((List.range' start fuel).map (fun e =>
              countFailureIncs (push_metrics_to_prometheus nm vr (mf e) (gw e)))).sum }) := by
  intro fuel
  induction fuel with
  | zero =>
    intro start ms c _
    simp [runEpochs, List.range']
  | succ n ih =>
    intro start ms c hok
    have h0 : gen start = .ok (mf start) := by
      refine hok start ?_
      rw [List.range'_succ]
      exact List.mem_cons_self _ _
    simp only [runEpochs, h0]
    rw [ih (start + 1) (ms ++ [mf start]) _ (fun e he => hok e (by
      rw [List.range'_succ]
      exact List.mem_cons_of_mem _ he))]
    rw [List.range'_succ]
    simp only [List.map_cons, List.sum_cons, List.cons_append, List.append_assoc,
      List.singleton_append, Prod.mk.injEq, TrainerCounters.mk.injEq]
    refine ⟨trivial, rfl, by omega, by omega⟩

/-- If the generator succeeds on epochs `start..k-1` and raises on epoch
`k` (which lies inside the window), the loop stops at `k` with exactly
the samples of `start..k-1` appended. -/
theorem runEpochs_err (nm vr : String) (gen : ℕ → Except String TrainingMetrics)
    (gw : ℕ → ℕ → AttemptOutcome) (mf : ℕ → TrainingMetrics) (err : String) :
    ∀ (fuel start k : ℕ) (ms : List TrainingMetrics) (c : TrainerCounters),
      start ≤ k → k < start + fuel →
      (∀ e, start ≤ e → e < k → gen e = .ok (mf e)) →
      gen k = .error err →
      ∃ c2, runEpochs nm vr gen gw start fuel ms c =
        (some err, ms ++ (List.range' start (k - start)).map mf, c2) := by
  intro fuel
  induction fuel with
  | zero =>
    intro start k ms c h1 h2 _ _
    omega
  | succ n ih =>
    intro start k ms c h1 h2 hok herr
    rcases Nat.eq_or_lt_of_le h1 with heq | hlt
    · subst heq
      refine ⟨c, ?_⟩
      simp [runEpochs, herr, List.range']
    · have h0 : gen start = .ok (mf start) := hok start (le_refl _) hlt
      simp only [runEpochs, h0]
      obtain ⟨c2, hc2⟩ := ih (start + 1) k (ms ++ [mf start]) _ hlt (by omega)
        (fun e he1 he2 => hok e (by omega) he2) herr
      refine ⟨c2, ?_⟩
      rw [hc2]
      have hks : k - start = (k - (start + 1)) + 1 := by omega
      rw [hks, List.range'_succ]
      simp [List.append_assoc]

theorem run_training_counters (nm vr : String) (epochs : ℕ)
    (gen : ℕ → Except String TrainingMetrics) (gw : ℕ → ℕ → AttemptOutcome)
    (st en : ℚ) :
    (run_training nm vr epochs gen gw st en).2.2 =
      (runEpochs nm vr gen gw 1 epochs [] { epoch_count := 0, failure_count := 0 }).2.2 := by
  unfold run_training
  rcases hE : runEpochs nm vr gen gw 1 epochs [] { epoch_count := 0, failure_count := 0 }
    with ⟨o, ms, c⟩
  cases o <;> cases hL : ms.getLast? <;> simp [hL]

/-- A run whose generator succeeds on every configured epoch reports
status "completed", whatever the gateway does. -/
theorem run_status_completed_of_ok (nm vr : String) (epochs : ℕ)
    (h1 : 1 ≤ epochs) (gen : ℕ → Except String TrainingMetrics)
    (mf : ℕ → TrainingMetrics)
    (hok : ∀ e, 1 ≤ e → e ≤ epochs → gen e = .ok (mf e))
    (gw : ℕ → ℕ → AttemptOutcome) (st en : ℚ) :
    (run_training nm vr epochs gen gw st en).1.lookup "status" =
      some (.s "completed") := by
  have hR := runEpochs_ok nm vr gen gw mf epochs 1 []
    { epoch_count := 0, failure_count := 0 }
    (fun e he => by
      have hb := List.mem_range'_1.mp he
      exact hok e hb.1 (by omega))
  obtain ⟨n, rfl⟩ : ∃ n, epochs = n + 1 := ⟨epochs - 1, by omega⟩
  have hlast : ((List.range' 1 (n + 1)).map mf).getLast? = some (mf (n + 1)) := by
    rw [List.range'_1_concat, List.map_append]
    rw [show (List.map mf [1 + n]) = [mf (n + 1)] by
      simp [Nat.add_comm 1 n]]
    exact List.getLast?_concat _
  unfold run_training
  rw [hR]
  simp only [List.nil_append]
  rw [hlast]
  simp [List.lookup]

/-- C5 (amended): when a run of N ≥ 1 units completes without an
unrecovered error, the returned summary carries the run name, status
"completed", final quality equal to the last sample's quality, best
quality equal to the maximum quality over the whole sample sequence,
elapsed seconds equal to (end − start) rounded to 2 decimal places, the
final cost score and the total units configured — and exactly those seven
fields: it contains no count of the units actually completed (that field
exists only in the failure summary). -/
theorem C5_completed_summary (nm vr : String) (epochs : ℕ) (h1 : 1 ≤ epochs)
    (gen : ℕ → Except String TrainingMetrics) (mf : ℕ → TrainingMetrics)
    (hok : ∀ e, 1 ≤ e → e ≤ epochs → gen e = .ok (mf e))
    (gw : ℕ → ℕ → AttemptOutcome) (st en : ℚ) :
    (run_training nm vr epochs gen gw st en).1 =
      [ ("model_name", .s nm),
        ("final_accuracy", .q (mf epochs).accuracy),
        ("total_epochs", .n epochs),
        ("training_time_seconds", .q (pyRound 2 (en - st))),
        ("status", .s "completed"),
        ("best_accuracy", .q (listMax (((List.range' 1 epochs).map mf).map
          (fun m => m.accuracy)))),
        ("final_loss", .q (mf epochs).loss) ] ∧
    (run_training nm vr epochs gen gw st en).2.1.length = epochs ∧
    List.map Prod.fst (run_training nm vr epochs gen gw st en).1 =
      ["model_name", "final_accuracy", "total_epochs", "training_time_seconds",
       "status", "best_accuracy", "final_loss"] ∧
    (run_training nm vr epochs gen gw st en).1.lookup "epochs_completed" = none ∧
    (∀ e, 1 ≤ e → e ≤ epochs → (mf e).accuracy ≤
      listMax (((List.range' 1 epochs).map mf).map (fun m => m.accuracy))) ∧
    (∃ e, 1 ≤ e ∧ e ≤ epochs ∧ (mf e).accuracy =
      listMax (((List.range' 1 epochs).map mf).map (fun m => m.accuracy))) := by
  have hR := runEpochs_ok nm vr gen gw mf epochs 1 []
    { epoch_count := 0, failure_count := 0 }
    (fun e he => by
      have hb := List.mem_range'_1.mp he
      exact hok e hb.1 (by omega))
  obtain ⟨n, rfl⟩ : ∃ n, epochs = n + 1 := ⟨epochs - 1, by omega⟩
  have hlast : ((List.range' 1 (n + 1)).map mf).getLast? = some (mf (n + 1)) := by
    rw [List.range'_1_concat, List.map_append]
    rw [show (List.map mf [1 + n]) = [mf (n + 1)] by
      simp [Nat.add_comm 1 n]]
    exact List.getLast?_concat _
  have hmain : (run_training nm vr (n + 1) gen gw st en).1 =
      [ ("model_name", .s nm),
        ("final_accuracy", .q (mf (n + 1)).accuracy),
        ("total_epochs", .n (n + 1)),
        ("training_time_seconds", .q (pyRound 2 (en - st))),
        ("status", .s "completed"),
        ("best_accuracy", .q (listMax (((List.range' 1 (n + 1)).map mf).map
          (fun m => m.accuracy)))),
        ("final_loss", .q (mf (n + 1)).loss) ] := by
    unfold run_training
    rw [hR]
    simp only [List.nil_append]
    rw [hlast]
  have hne : ((List.range' 1 (n + 1)).map mf).map (fun m => m.accuracy) ≠ [] := by
    intro hnil
    have : (((List.range' 1 (n + 1)).map mf).map (fun m => m.accuracy)).length
        = n + 1 := by simp
    rw [hnil] at this
    simp at this
  have hmemacc : ∀ e, 1 ≤ e → e ≤ n + 1 → (mf e).accuracy ∈
      ((List.range' 1 (n + 1)).map mf).map (fun m => m.accuracy) := by
    intro e he1 he2
    exact List.mem_map_of_mem _ (List.mem_map_of_mem mf
      (List.mem_range'_1.mpr ⟨he1, by omega⟩))
  refine ⟨hmain, ?_, ?_, ?_, ?_, ?_⟩
  · unfold run_training
    rw [hR]
    simp only [List.nil_append]
    rw [hlast]
    simp
  · rw [hmain]
    simp
  · rw [hmain]
    simp [List.lookup]
  · intro e he1 he2
    exact le_listMax_of_mem (hmemacc e he1 he2)
  · have hmem := listMax_mem hne
    obtain ⟨m2, hm2, hacc⟩ := List.mem_map.mp hmem
    obtain ⟨e, he, rfl⟩ := List.mem_map.mp hm2
    have hb := List.mem_range'_1.mp he
    exact ⟨e, hb.1, by omega, hacc⟩

/-- Witness for C5: a 3-unit run with an always-succeeding generator and
gateway yields a summary without any completed-units field. -/
theorem C5_completed_summary_witness :
    (run_training "demo-model" "1.0.0" 3 (fun _ => .ok sampleA)
      (fun _ _ => .success) 0 10).1.lookup "epochs_completed" = none :=
  (C5_completed_summary "demo-model" "1.0.0" 3 (by norm_num)
    (fun _ => .ok sampleA) (fun _ => sampleA) (fun _ _ _ => rfl)
    (fun _ _ => .success) 0 10).2.2.2.1

/-- Counterexample for C5: in a concrete completed 2-unit run with
elapsed raw time 63/500 = 0.126 seconds, the summary's keys are exactly
the seven listed — no field carries the units actually completed (the
`epochs_completed` key is absent) — and the recorded elapsed time is
0.13, the 2-decimal rounding of 0.126, not the exact end−start
difference the claim states. -/
theorem C5_counterexample :
    List.map Prod.fst (run_training "demo-model" "1.0.0" 2 (fun _ => .ok sampleA)
      (fun _ _ => .success) 0 (63/500)).1 =
      ["model_name", "final_accuracy", "total_epochs", "training_time_seconds",
       "status", "best_accuracy", "final_loss"] ∧
    (run_training "demo-model" "1.0.0" 2 (fun _ => .ok sampleA)
      (fun _ _ => .success) 0 (63/500)).1.lookup "epochs_completed" = none ∧
    (run_training "demo-model" "1.0.0" 2 (fun _ => .ok sampleA)
      (fun _ _ => .success) 0 (63/500)).1.lookup "training_time_seconds" =
      some (.q (13/100)) ∧
    (13 : ℚ)/100 ≠ 63/500 - 0 := by
  have hR := runEpochs_ok "demo-model" "1.0.0" (fun _ => .ok sampleA)
    (fun _ _ => .success) (fun _ => sampleA) 2 1 []
    { epoch_count := 0, failure_count := 0 } (fun _ _ => rfl)
  have hround : pyRound 2 ((63 : ℚ)/500) = 13/100 := by
    unfold pyRound
    rw [show ((63 : ℚ)/500) * 10 ^ 2 = 63/5 by norm_num]
    rw [round_eq]
    norm_num
  have hrange : List.range' 1 2 = [1, 2] := rfl
  unfold run_training
  rw [hR, hrange]
  simp [List.lookup, hround]
  norm_num

/-- C6: a generator (or orchestrator bookkeeping) error on unit k stops
the run immediately; the summary carries status "failed", the error's
description, and `epochs_completed` = k−1, the number of units fully
finished before the fault; and push-delivery failures never cause this
transition — with an always-succeeding generator the run completes no
matter how the gateway behaves on any attempt. -/
theorem C6_generator_fault (nm vr : String) (epochs k : ℕ)
    (hk1 : 1 ≤ k) (hk2 : k ≤ epochs)
    (gen : ℕ → Except String TrainingMetrics) (mf : ℕ → TrainingMetrics)
    (err : String)
    (hok : ∀ e, 1 ≤ e → e < k → gen e = .ok (mf e))
    (herr : gen k = .error err)
    (gw : ℕ → ℕ → AttemptOutcome) (st en : ℚ) :
    (run_training nm vr epochs gen gw st en).1 =
      [ ("model_name", .s nm),
        ("status", .s "failed"),
        ("error", .s err),
        ("epochs_completed", .n (k - 1)) ] ∧
    (run_training nm vr epochs gen gw st en).2.1.length = k - 1 ∧
    (∀ gen2 : ℕ → Except String TrainingMetrics, ∀ mf2 : ℕ → TrainingMetrics,
      (∀ e, 1 ≤ e → e ≤ epochs → gen2 e = .ok (mf2 e)) →
      (run_training nm vr epochs gen2 gw st en).1.lookup "status" =
        some (.s "completed")) := by
  obtain ⟨c2, hR⟩ := runEpochs_err nm vr gen gw mf err epochs 1 k []
    { epoch_count := 0, failure_count := 0 } hk1 (by omega)
    (fun e he1 he2 => hok e he1 he2) herr
  refine ⟨?_, ?_, ?_⟩
  · unfold run_training
    rw [hR]
    simp
  · unfold run_training
    rw [hR]
    simp
  · intro gen2 mf2 hok2
    exact run_status_completed_of_ok nm vr epochs (le_trans hk1 hk2) gen2 mf2
      hok2 gw st en

/-- Witness for C6, spec scenario B: the generator raising "boom" on unit
2 of 5 yields a failed summary with `epochs_completed` = 1. -/
theorem C6_generator_fault_witness :
    (run_training "demo-model" "1.0.0" 5
      (fun e => if e = 2 then .error "boom" else .ok sampleA)
      (fun _ _ => .success) 0 10).1 =
      [ ("model_name", .s "demo-model"),
        ("status", .s "failed"),
        ("error", .s "boom"),
        ("epochs_completed", .n 1) ] :=
  (C6_generator_fault "demo-model" "1.0.0" 5 2 (by norm_num) (by norm_num)
    (fun e => if e = 2 then .error "boom" else .ok sampleA)
    (fun _ => sampleA) "boom"
    (fun e he1 he2 => by
      have : e = 1 := by omega
      subst this
      rfl)
    rfl (fun _ _ => .success) 0 10).1

/-- C10: inside the push retry loop the per-run epoch counter is
incremented once on every attempt — the increment precedes the network
send of its attempt, including attempts that fail — so a push that needed
k attempts adds exactly k to the counter; over a run whose generator
always succeeds the counter totals the per-unit attempt counts, is at
least the number of completed units, and strictly exceeds it as soon as
any unit's first push attempt failed. -/
theorem C10_epoch_counter_per_attempt (nm vr : String) (m : TrainingMetrics)
    (gw : ℕ → AttemptOutcome) (epochs : ℕ) (mf : ℕ → TrainingMetrics)
    (gw2 : ℕ → ℕ → AttemptOutcome) (st en : ℚ) :
    countEpochIncs (push_metrics_to_prometheus nm vr m gw) =
      countSends (push_metrics_to_prometheus nm vr m gw) ∧
    epochSendCore (push_metrics_to_prometheus nm vr m gw) =
      ((List.range (countSends (push_metrics_to_prometheus nm vr m gw))).map
        gw).bind (fun o => [.incEpoch nm vr, .send o]) ∧
    (run_training nm vr epochs (fun e => .ok (mf e)) gw2 st en).2.2.epoch_count =
      ((List.range' 1 epochs).map (fun e =>
        countEpochIncs (push_metrics_to_prometheus nm vr (mf e) (gw2 e)))).sum ∧
    epochs ≤
      (run_training nm vr epochs (fun e => .ok (mf e)) gw2 st en).2.2.epoch_count ∧
    ((∃ e, 1 ≤ e ∧ e ≤ epochs ∧ (gw2 e 0).isSuccess = false) →
      epochs <
        (run_training nm vr epochs (fun e => .ok (mf e)) gw2 st en).2.2.epoch_count) := by
  have hc : (run_training nm vr epochs (fun e => .ok (mf e)) gw2 st en).2.2.epoch_count =
      ((List.range' 1 epochs).map (fun e =>
        countEpochIncs (push_metrics_to_prometheus nm vr (mf e) (gw2 e)))).sum := by
    rw [run_training_counters]
    rw [runEpochs_ok nm vr (fun e => .ok (mf e)) gw2 mf epochs 1 []
      { epoch_count := 0, failure_count := 0 } (fun _ _ => rfl)]
    simp
  have hones : ∀ x ∈ (List.range' 1 epochs).map (fun e =>
      countEpochIncs (push_metrics_to_prometheus nm vr (mf e) (gw2 e))), 1 ≤ x := by
    intro x hx
    obtain ⟨e, _, rfl⟩ := List.mem_map.mp hx
    rw [countEpochIncs_eq_countSends]
    exact one_le_countSends nm vr (mf e) (gw2 e)
  refine ⟨countEpochIncs_eq_countSends nm vr m gw, ?_, hc, ?_, ?_⟩
  · have hU := push_unfold nm vr m gw
    rw [hU]
    cases h0 : (gw 0).isSuccess <;> cases h1 : (gw 1).isSuccess <;>
      cases h2 : (gw 2).isSuccess <;>
      simp [h0, h1, h2, attemptEvents, epochSendCore, countSends,
        List.range_succ]
  · rw [hc]
    have h := length_le_sum _ hones
    simpa using h
  · rintro ⟨e, he1, he2, hfail⟩
    rw [hc]
    have hmem : countEpochIncs (push_metrics_to_prometheus nm vr (mf e) (gw2 e)) ∈
        (List.range' 1 epochs).map (fun e =>
          countEpochIncs (push_metrics_to_prometheus nm vr (mf e) (gw2 e))) :=
      List.mem_map_of_mem _ (List.mem_range'_1.mpr ⟨he1, by omega⟩)
    have h2 : 2 ≤ countEpochIncs (push_metrics_to_prometheus nm vr (mf e) (gw2 e)) := by
      rw [countEpochIncs_eq_countSends]
      exact two_le_countSends_of_first_fail nm vr (mf e) (gw2 e) hfail
    have h := length_lt_sum _ hones _ hmem h2
    simpa using h

/-- Witness for C10: a 2-unit run against a gateway that times out on
every attempt yields an epoch-counter total of 6, exceeding the 2
completed units. -/
theorem C10_epoch_counter_per_attempt_witness :
    2 < (run_training "demo-model" "1.0.0" 2 (fun _ => .ok sampleA)
      (fun _ _ => .timeout) 0 10).2.2.epoch_count :=
  (C10_epoch_counter_per_attempt "demo-model" "1.0.0" sampleA
    (fun _ => .success) 2 (fun _ => sampleA) (fun _ _ => .timeout) 0
    10).2.2.2.2 ⟨1, le_refl 1, by norm_num, rfl⟩

end MLOpsTrain
